import Mathlib

/-!
Verification development for the Worker workflow-execution service.

This file gives a shallow embedding, in Lean 4, of the parts of the Python
source that the specification talks about:

* `WorkerEngine.execute_command` and `WorkerEngine._apply_decorators`
  (src/worker_engine.py),
* `WorkflowEngine.run` — the DAG executor — (src/workflow/workflow_engine.py),
* `RetryDecorator.run` (src/decorador.py),
* `WorkerService._convert_api_workflow_to_definition`,
  `WorkerService._map_step_type`, `WorkerService._update_workflow_status_in_db`
  and `WorkerService._execute_workflow` (src/service/worker_service.py),
* `Taskregistry.create` (src/registry.py and src/factory.py, identical here).

Modelling conventions:

* JSON-shaped Python values (task params, task results, workflow definitions)
  are the inductive `JsonV`.  Python `None` is `JsonV.null`.
* Python dicts keyed by strings are association lists `List (String × v)`
  together with `setKey` (assignment: overwrite in place if the key exists,
  append otherwise — exactly the observable behaviour of `d[k] = v`) and
  `List.lookup` (`d.get(k)`).
* Exceptions are `Except String`: `.error e` is a raised exception carrying
  `str(e)`; `.ok` is normal return.
* Seconds are idealized as rationals `ℚ` (the source uses floats).
* A concrete task together with its per-type decorator chain is abstracted as
  a `TaskBehavior`: what `task.run(context, params)` does for a given task
  type.  The registry is the list of registered type names.
-/

set_option maxRecDepth 10000

/-- JSON-shaped values: the payloads the worker passes around
(task params, node results, workflow definitions). -/
inductive JsonV where
  | null
  | bool (b : Bool)
  | num (n : Int)
  | str (s : String)
  | arr (xs : List JsonV)
  | obj (fields : List (String × JsonV))

/-- Python dict assignment `d[k] = v`: if the key is present, its value is
replaced in place (keeping its position); otherwise the pair is appended at
the end.  Keys of a Python dict are unique, so replacing the first
occurrence models the assignment exactly. -/
def setKey {v : Type} : List (String × v) → String → v → List (String × v)
  | [], k, x => [(k, x)]
  | p :: rest, k, x =>
      if p.1 = k then (k, x) :: rest else p :: setKey rest k x

/-- `TaskCommand` (src/Task_command.py): immutable description of one task
execution request. -/
structure TaskCommand where
  runId : String
  nodeKey : String
  type : String
  params : List (String × JsonV)

/-- The uniform result envelope `execute_command` returns.
The SUCCESS envelope carries `run_id`, `node_key` and `result`;
the FAILED envelope built in the `except` branch carries only `error`
(worker_engine.py lines 54-59 and 64), hence the `Option` fields. -/
structure Envelope where
  status : String
  runId : Option String
  nodeKey : Option String
  result : Option JsonV
  error : Option String

/-- What `task.run(context, params)` does for a given task type, with the
configured decorator chain already applied: either returns a result value or
raises.  The context argument is the mapping the caller hands to `run`. -/
def TaskBehavior : Type :=
  String → List (String × JsonV) → List (String × JsonV) → Except String JsonV

/-- `WorkerEngine.execute_command` (src/worker_engine.py lines 31-64).

* `registry` is the list of registered task types; `Taskregistry.create`
  (src/registry.py lines 33-37) raises `ValueError("Unknown task type: <t>")`
  when the type is not registered.  That call sits BEFORE the `try` block,
  so the exception propagates out of `execute_command` (the outer
  `Except String` layer).
* Line 34-35 initialise `context` to `{}` when `None` is passed, but line 45
  then unconditionally rebinds `context = {}`, so the task always runs with
  an empty context whatever the caller passed. -/
def executeCommand (registry : List String) (beh : TaskBehavior)
    (cmd : TaskCommand) (context : Option (List (String × JsonV))) :
    Except String Envelope :=
  -- lines 34-35: `if context is None: context = {}`
  let _initialContext := context.getD []
  -- line 38: `task = self.registry.create(command.type)` — may raise
  if registry.contains cmd.type then
    -- line 45: `context = {}` — discards whatever the caller passed
    let runContext : List (String × JsonV) := []
    match beh cmd.type runContext cmd.params with
    | .ok r =>
        -- lines 54-59: SUCCESS envelope
        .ok { status := "SUCCESS", runId := some cmd.runId,
              nodeKey := some cmd.nodeKey, result := some r, error := none }
    | .error e =>
        -- lines 61-64: `except Exception` → FAILED envelope
        .ok { status := "FAILED", runId := none, nodeKey := none,
              result := none, error := some e }
  else
    .error ("Unknown task type: " ++ cmd.type)

/-- The shape of a task run function, as the decorators see it:
`(context, params) ↦ result-or-exception`. -/
def TaskFun : Type :=
  List (String × JsonV) → List (String × JsonV) → Except String JsonV

/-- `WorkerEngine._apply_decorators` (src/worker_engine.py lines 19-29):

    decorated_task = task
    for decorator_cls in decorators:
        decorated_task = decorator_cls(decorated_task)

Each configured decorator is a `Task → Task` wrapper; the loop folds the
configured sequence over the inner task from the left. -/
def applyDecorators (decorators : List (TaskFun → TaskFun)) (task : TaskFun) :
    TaskFun :=
  decorators.foldl (fun decorated d => d decorated) task

/-- `result_data.get("success") is False` guarded by
`isinstance(result_data, dict)` (workflow_engine.py lines 79-80):
true exactly when the payload is a mapping whose `success` field is
literally the boolean `false`.  `result_data` is `task_result.get("result")`,
absent (`none`) on the FAILED envelope. -/
def isFalseSuccess : Option JsonV → Bool
  | some (JsonV.obj fields) =>
      match List.lookup "success" fields with
      | some (JsonV.bool false) => true
      | _ => false
  | _ => false

/-- Node status determination (workflow_engine.py lines 78-85): SUCCESS iff
the envelope status is SUCCESS and the payload is not a mapping whose
`success` field is literally false; FAILED otherwise. -/
def determineStatus (envStatus : String) (resultData : Option JsonV) :
    String :=
  if envStatus = "SUCCESS" && !(isFalseSuccess resultData) then "SUCCESS"
  else "FAILED"

/-- `WorkflowNode` (src/workflow/workflow_models.py lines 5-10). -/
structure Node where
  id : String
  type : String
  params : List (String × JsonV)
  dependsOn : List String

/-- `WorkflowDefinition` (src/workflow/workflow_models.py lines 12-25).
The data-model invariant (spec section 3) requires the node ids to be
distinct; under that invariant the Python dict
`pending = {node.id: node for node in workflow.nodes}` is the ordered
association list `workflow.nodes` keyed by `id`, which is how we model it. -/
structure WorkflowDef where
  name : String
  nodes : List Node

/-- A single quote character, used by the Python repr of a list of strings. -/
def singleQuote : String := String.singleton (Char.ofNat 39)

/-- Python `repr` of a list of strings, as interpolated by
`f"Dependencia fallida: {deps}"` (workflow_engine.py line 55). -/
def pyListRepr (deps : List String) : String :=
  "[" ++ String.intercalate ", "
    (deps.map (fun d => singleQuote ++ d ++ singleQuote)) ++ "]"

/-- The synthetic result recorded for a skipped node
(workflow_engine.py lines 53-56). -/
def skippedPayload (deps : List String) : JsonV :=
  JsonV.obj [("status", JsonV.str "SKIPPED"),
             ("reason", JsonV.str ("Dependencia fallida: " ++ pyListRepr deps))]

/-- The mutable state of one `WorkflowEngine.run` invocation
(workflow_engine.py lines 23-29): the shared per-run `context`, the output
`results` map, the per-node `node_status` map, the `pending` node collection,
the `executed` id set, and the per-pass `progress` flag. -/
structure RunState where
  pending : List Node
  executed : List String
  nodeStatus : List (String × String)
  results : List (String × JsonV)
  context : List (String × JsonV)
  progress : Bool

/-- The `TaskCommand` the DAG executor builds for a node
(workflow_engine.py lines 66-71). -/
def mkCmd (workflowName : String) (node : Node) : TaskCommand :=
  { runId := workflowName ++ "_" ++ node.id,
    nodeKey := node.id,
    type := node.type,
    params := node.params }

/-- The skip branch of the scheduling loop (workflow_engine.py lines 50-60):
mark the node SKIPPED, record the synthetic payload, add the node to the
executed set and drop it from pending.  Note the skipped node IS added to
`executed`, and its payload goes into `results` but not into `context`. -/
def recordSkip (st : RunState) (node : Node) : RunState :=
  { st with
    nodeStatus := setKey st.nodeStatus node.id "SKIPPED",
    results := setKey st.results node.id (skippedPayload node.dependsOn),
    executed := st.executed ++ [node.id],
    pending := st.pending.filter (fun n => n.id ≠ node.id),
    progress := true }

/-- The execute branch of the scheduling loop (workflow_engine.py lines
74-105) once the runner returned the envelope `env`: determine the node
status, store `task_result.get("result")` (Python `None` ↦ `JsonV.null`)
into both `results` and `context`, persist, and retire the node. -/
def recordExec (st : RunState) (node : Node) (env : Envelope) : RunState :=
  { st with
    nodeStatus := setKey st.nodeStatus node.id
      (determineStatus env.status env.result),
    results := setKey st.results node.id ((env.result).getD JsonV.null),
    context := setKey st.context node.id ((env.result).getD JsonV.null),
    executed := st.executed ++ [node.id],
    pending := st.pending.filter (fun n => n.id ≠ node.id),
    progress := true }

/-- The body of the scheduling loop for one node of the current snapshot
(workflow_engine.py lines 46-105).

* If some direct dependency has status FAILED → skip branch.
* Else if every dependency is in the executed set → execute via
  `self.worker.execute_command(command)` (line 74 — note: NO context
  argument is passed).  An exception raised there (unknown task type)
  propagates out of the whole run.
* Otherwise the node stays pending and nothing changes. -/
def processNode (registry : List String) (beh : TaskBehavior)
    (workflowName : String) (st : RunState) (node : Node) :
    Except String RunState :=
  if node.dependsOn.any (fun d => List.lookup d st.nodeStatus = some "FAILED")
  then
    .ok (recordSkip st node)
  else if node.dependsOn.all (fun d => st.executed.contains d) then
    (executeCommand registry beh (mkCmd workflowName node) none).map
      (fun env => recordExec st node env)
  else
    .ok st

/-- One full pass of the scheduling loop over the snapshot
`list(pending.items())` taken at the start of the pass
(workflow_engine.py line 46). -/
def runPass (registry : List String) (beh : TaskBehavior)
    (workflowName : String) :
    List Node → RunState → Except String RunState
  | [], st => .ok st
  | node :: rest, st =>
      (processNode registry beh workflowName st node) >>=
        runPass registry beh workflowName rest

/-- The `while pending:` loop (workflow_engine.py lines 43-108).  Each
productive pass removes at least one node from `pending`, so
`fuel = pending.length` passes always suffice; since the state space is
finite no real iteration is lost by bounding the recursion this way.  A
pass with no progress raises the cyclic-or-blocked error (line 108)
exactly as the source does. -/
def runLoop (registry : List String) (beh : TaskBehavior)
    (workflowName : String) : Nat → RunState → Except String RunState
  | 0, st =>
      if st.pending.isEmpty then .ok st
      else .error "No se puede continuar: dependencias circulares o tareas bloqueadas."
  | fuel + 1, st =>
      if st.pending.isEmpty then .ok st
      else
        (runPass registry beh workflowName st.pending
            { st with progress := false }) >>= fun st1 =>
          if st1.progress then runLoop registry beh workflowName fuel st1
          else .error "No se puede continuar: dependencias circulares o tareas bloqueadas."

/-- Terminal status reduction (workflow_engine.py lines 112-117), applied to
`node_status.values()`. -/
def reduceStatus (statuses : List String) : String :=
  if statuses.all (fun s => s = "SUCCESS") then "SUCCESS"
  else if statuses.any (fun s => s = "SUCCESS") then "PARTIAL_SUCCESS"
  else "FAILED"

/-- `WorkflowResult` (src/workflow/workflow_models.py lines 27-31). -/
structure WorkflowResult where
  workflowName : String
  status : String
  results : List (String × JsonV)

/-- `WorkflowEngine.run` (src/workflow/workflow_engine.py lines 19-128),
persistence effects elided: initialise the state, run the scheduling loop,
reduce the node statuses, and return the `WorkflowResult`.  A `.error` is an
exception propagating out of `run` (the cyclic/blocked `RuntimeError`, or an
unknown-task-type `ValueError` escaping `execute_command`). -/
def runWorkflow (registry : List String) (beh : TaskBehavior)
    (wf : WorkflowDef) : Except String (WorkflowResult × RunState) :=
  let st0 : RunState :=
    { pending := wf.nodes, executed := [], nodeStatus := [],
      results := [], context := [], progress := false }
  (runLoop registry beh wf.name wf.nodes.length st0).map (fun st =>
    ({ workflowName := wf.name,
       status := reduceStatus (st.nodeStatus.map Prod.snd),
       results := st.results }, st))

/-- One legacy-shape step, after the dict `get` defaults of
`_convert_api_workflow_to_definition` (worker_service.py lines 241-247):
`step.get("type", "")` and `step.get("args", {})`. -/
structure LegacyStep where
  type : String
  args : List (String × JsonV)

/-- The fixed display-name canonicalisation table
(`WorkerService._map_step_type`, worker_service.py lines 262-268). -/
def stepTypeMapping : List (String × String) :=
  [("HTTPS GET Request", "http_get"),
   ("Validate CSV File", "validate_csv"),
   ("Simple Transform", "transform_simple"),
   ("Save to Database", "save_db"),
   ("Mock Notification", "notify_mock")]

/-- Python `str.lower()` restricted to its ASCII behaviour. -/
def pyLower (s : String) : String := s.map Char.toLower

/-- Python `str.replace(" ", "_")`. -/
def underscoreSpaces (s : String) : String :=
  s.map (fun c => if c = ' ' then '_' else c)

/-- `WorkerService._map_step_type` (worker_service.py lines 258-275):
table lookup; a falsy lookup result (`None`, or an empty string) falls back
to the lowercased, space-to-underscore form of the display name. -/
def mapStepType (apiType : String) : String :=
  match List.lookup apiType stepTypeMapping with
  | some w => if w = "" then underscoreSpaces (pyLower apiType) else w
  | none => underscoreSpaces (pyLower apiType)

/-- The node built for the i-th legacy step
(worker_service.py lines 241-250). -/
def legacyNode (i : Nat) (step : LegacyStep) : Node :=
  { id := "step_" ++ toString i,
    type := mapStepType step.type,
    params := step.args,
    dependsOn := if i = 0 then [] else ["step_" ++ toString (i - 1)] }

/-- The `for i, step in enumerate(steps)` loop of
`_convert_api_workflow_to_definition` (worker_service.py lines 241-250),
started at index `i`. -/
def convertStepsFrom (i : Nat) : List LegacyStep → List Node
  | [] => []
  | step :: rest => legacyNode i step :: convertStepsFrom (i + 1) rest

/-- The legacy-shape branch of `_convert_api_workflow_to_definition`
(worker_service.py lines 237-250). -/
def convertSteps (steps : List LegacyStep) : List Node :=
  convertStepsFrom 0 steps

/-- The definition rewrite performed by
`WorkerService._update_workflow_status_in_db` when `results` is non-empty
(worker_service.py lines 197-201):

    current_def["execution_results"] = results
    current_def["executed_at"] = datetime.now(UTC).isoformat()

on the deserialised definition object, which is then serialised back. -/
def finaliseDefinition (currentDef : List (String × JsonV))
    (results : JsonV) (executedAt : JsonV) : List (String × JsonV) :=
  setKey (setKey currentDef "execution_results" results) "executed_at" executedAt

/-- A `workflowtable` row as far as the claim/update logic observes it
(src/Models/shared_workflow_table.py): its external status and its
definition JSON. -/
structure SharedRow where
  status : String
  definition : List (String × JsonV)

/-- The status-only path of `WorkerService._update_workflow_status_in_db`
(worker_service.py lines 183-208, with `results=None`): look the row up by
id; if absent return `False`; otherwise write the new status unconditionally
and return `True`.  There is no `WHERE status = "en_espera"` guard — the
previous status is never examined. -/
def updateWorkflowStatusInDb (table : List (String × SharedRow))
    (workflowId : String) (newStatus : String) :
    Bool × List (String × SharedRow) :=
  match List.lookup workflowId table with
  | none => (false, table)
  | some row => (true, setKey table workflowId { row with status := newStatus })

/-- The claim step of `WorkerService._execute_workflow`
(worker_service.py line 303): transition the row to `en_progreso`. -/
def claimWorkflow (table : List (String × SharedRow)) (workflowId : String) :
    Bool × List (String × SharedRow) :=
  updateWorkflowStatusInDb table workflowId "en_progreso"

/-- The outcome of one invocation of the inner task wrapped by the Retry
decorator: indexed by the attempt number (0-based), either a returned value
or a raised exception. -/
def InnerRuns : Type := Nat → Except String JsonV

/-- The recursive core of `RetryDecorator.run` (src/decorador.py lines
185-223).  State carried across iterations of
`for attempt in range(self.max_retries + 1)`:

* `remaining`: iterations the `for` loop still has;
* `attempt`: the current 0-based attempt index (also the number of inner
  invocations made so far when the loop ends);
* `curDelay`: the mutable `current_delay`;
* `sleeps`: the delays slept so far (`time.sleep(current_delay)`, line 198);
* `lastErr`: the mutable `last_exception`.

Returns (result, number of inner invocations, delays slept).  On loop
exhaustion the last exception is re-raised (line 223). -/
def retryGo (inner : InnerRuns) (backoffMultiplier : ℚ) :
    Nat → Nat → ℚ → List ℚ → String → Except String JsonV × Nat × List ℚ
  | 0, attempt, _, sleeps, lastErr => (.error lastErr, attempt, sleeps)
  | remaining + 1, attempt, curDelay, sleeps, _ =>
      -- lines 193-199: sleep before every attempt but the first,
      -- then scale the delay for the next one
      match inner attempt with
      | .ok v =>
          (.ok v, attempt + 1,
            if attempt = 0 then sleeps else sleeps ++ [curDelay])
      | .error e =>
          retryGo inner backoffMultiplier remaining (attempt + 1)
            (if attempt = 0 then curDelay else curDelay * backoffMultiplier)
            (if attempt = 0 then sleeps else sleeps ++ [curDelay]) e

/-- `RetryDecorator.run` (src/decorador.py lines 185-223): attempt the inner
`run` up to `maxRetries + 1` times, sleeping
`delay_seconds * backoff_multiplier ^ (k-1)` before the k-th retry, and
re-raise the last exception when every attempt threw.  Returns
(result, number of inner invocations, delays slept in order). -/
def retryRun (maxRetries : Nat) (delaySeconds backoffMultiplier : ℚ)
    (inner : InnerRuns) : Except String JsonV × Nat × List ℚ :=
  retryGo inner backoffMultiplier (maxRetries + 1) 0 delaySeconds [] ""

/-- The five task types `WorkerService._register_tasks` registers
(worker_service.py lines 94-105). -/
def theFiveTypes : List String :=
  ["http_get", "validate_csv", "transform_simple", "save_db", "notify_mock"]

/-- An instrumented task behaviour that returns, as its result payload, the
context mapping it was invoked with.  Used to observe which context the
engine actually hands to a task. -/
def echoContextBeh : TaskBehavior :=
  fun _ context _ => .ok (JsonV.obj context)

/-- The internal workflow status of a finished run, `none` when `run` raised. -/
def runStatusOf : Except String (WorkflowResult × RunState) → Option String
  | .ok p => some p.1.status
  | .error _ => none

/-- The node statuses of a finished run, in recording order. -/
def runNodeStatusesOf :
    Except String (WorkflowResult × RunState) → Option (List String)
  | .ok p => some (p.2.nodeStatus.map Prod.snd)
  | .error _ => none

/-- The recorded result of one node of a finished run. -/
def resultOfNode (r : Except String (WorkflowResult × RunState))
    (nodeId : String) : Option JsonV :=
  match r with
  | .ok p => List.lookup nodeId p.1.results
  | .error _ => none

/-- The recorded status of one node of a finished run. -/
def statusOfNode (r : Except String (WorkflowResult × RunState))
    (nodeId : String) : Option String :=
  match r with
  | .ok p => List.lookup nodeId p.2.nodeStatus
  | .error _ => none

theorem lookup_setKey_self {v : Type} (l : List (String × v)) (k : String)
    (x : v) : List.lookup k (setKey l k x) = some x := by
  induction l with
  | nil => simp [setKey, List.lookup]
  | cons p rest ih =>
      by_cases h : p.1 = k
      · simp [setKey, h, List.lookup]
      · simp only [setKey, h, if_false, List.lookup]
        have hk : (k == p.1) = false := beq_eq_false_iff_ne.mpr (Ne.symm h)
        simp [hk, ih]

theorem lookup_setKey_ne {v : Type} (l : List (String × v)) (k k' : String)
    (x : v) (h : k' ≠ k) :
    List.lookup k' (setKey l k x) = List.lookup k' l := by
  have hk : (k' == k) = false := beq_eq_false_iff_ne.mpr h
  induction l with
  | nil => simp [setKey, List.lookup, hk]
  | cons p rest ih =>
      by_cases hp : p.1 = k
      · subst hp
        simp [setKey, List.lookup, hk]
      · simp only [setKey, hp, if_false, List.lookup]
        cases hq : (k' == p.1) <;> simp [hq, ih]

/-- A decorator that tags the inner result, so that the nesting order of a
composed chain is observable in the value it produces. -/
def wrapTag (tag : String) : TaskFun → TaskFun :=
  fun inner context params =>
    (inner context params).map
      (fun v => JsonV.obj [("by", JsonV.str tag), ("inner", v)])

/-- An inner task that ignores its arguments and returns `null`. -/
def plainTask : TaskFun := fun _ _ => .ok JsonV.null

/-- The tag of the outermost wrapper in a `wrapTag`-built result. -/
def outerTagOf : Except String JsonV → Option JsonV
  | .ok (JsonV.obj fields) => List.lookup "by" fields
  | _ => none

/-- C2 counterexample: `_apply_decorators` folds the configured sequence
from the left, so for the two-entry chain `[first, second]` the SECOND
(last) entry is the outermost wrapper, not the first: the composed task
equals `second (first task)` and differs observably from
`first (second task)`. -/
theorem applyDecoratorsFirstEntryNotOutermost :
    applyDecorators [wrapTag "first", wrapTag "second"] plainTask [] [] =
      wrapTag "second" (wrapTag "first" plainTask) [] [] ∧
    ¬ (applyDecorators [wrapTag "first", wrapTag "second"] plainTask [] [] =
        wrapTag "first" (wrapTag "second" plainTask) [] []) := by
  constructor
  · rfl
  · intro h
    have h2 := congrArg outerTagOf h
    simp [applyDecorators, wrapTag, plainTask, outerTagOf, Except.map] at h2

/-- C2 (amended): the runner composes decorators by a left fold, so the
LAST entry of the configured sequence is the outermost wrapper and the
FIRST entry executes closest to the inner task; an empty sequence leaves
the task unwrapped. -/
theorem applyDecoratorsLastEntryOutermost :
    ∀ (ds : List (TaskFun → TaskFun)) (d : TaskFun → TaskFun) (t : TaskFun),
      applyDecorators [] t = t ∧
      applyDecorators (ds ++ [d]) t = d (applyDecorators ds t) ∧
      applyDecorators (d :: ds) t = applyDecorators ds (d t) := by
  intro ds d t
  refine ⟨rfl, ?_, rfl⟩
  simp [applyDecorators, List.foldl_append]

/-- C3 counterexample: for a `TaskCommand` whose type is not registered,
`execute_command` does NOT return a FAILED envelope: the
`ValueError("Unknown task type: …")` raised by `Taskregistry.create` on
line 38 sits before the `try` block and propagates out of the runner. -/
theorem unknownTaskTypeRaisesConcrete :
    executeCommand theFiveTypes echoContextBeh
        { runId := "r1", nodeKey := "n1", type := "bogus", params := [] }
        none =
      .error "Unknown task type: bogus" := rfl

/-- C3 (amended): for every `TaskCommand` whose type is not registered,
`execute_command` raises `ValueError("Unknown task type: <t>")` out of the
runner (no envelope is returned on this path): the registry lookup happens
before the `try` block that would have converted it. -/
theorem executeCommandUnknownTypeRaises :
    ∀ (registry : List String) (beh : TaskBehavior) (cmd : TaskCommand)
      (context : Option (List (String × JsonV))),
      registry.contains cmd.type = false →
      executeCommand registry beh cmd context =
        .error ("Unknown task type: " ++ cmd.type) := by
  intro registry beh cmd context h
  have h2 : ¬ (cmd.type ∈ registry) := by simpa using h
  simp [executeCommand, h2]

/-- Witness for `executeCommandUnknownTypeRaises` at a concrete
unregistered type. -/
theorem executeCommandUnknownTypeRaisesWitness :
    executeCommand theFiveTypes echoContextBeh
        { runId := "r1", nodeKey := "n1", type := "missing_type", params := [] }
        none =
      .error ("Unknown task type: " ++ "missing_type") :=
  executeCommandUnknownTypeRaises theFiveTypes echoContextBeh
    { runId := "r1", nodeKey := "n1", type := "missing_type", params := [] }
    none rfl

theorem isFalseSuccess_false_iff (rd : Option JsonV) :
    isFalseSuccess rd = false ↔
      ∀ fields, rd = some (JsonV.obj fields) →
        List.lookup "success" fields ≠ some (JsonV.bool false) := by
  cases rd with
  | none => simp [isFalseSuccess]
  | some v =>
      cases v with
      | obj fields =>
          simp only [isFalseSuccess]
          cases h : List.lookup "success" fields with
          | none => simp [h]
          | some w =>
              cases w with
              | bool b => cases b <;> simp [h]
              | null => simp [h]
              | num n => simp [h]
              | str s => simp [h]
              | arr xs => simp [h]
              | obj f2 => simp [h]
      | null => simp [isFalseSuccess]
      | bool b => simp [isFalseSuccess]
      | num n => simp [isFalseSuccess]
      | str s => simp [isFalseSuccess]
      | arr xs => simp [isFalseSuccess]

/-- C4: for every envelope handed back by the runner, the status the DAG
executor records (workflow_engine.py lines 78-85) is SUCCESS iff the
envelope status is SUCCESS and the result payload is either not a mapping
or a mapping whose `success` field is not literally `false`; in every other
case the recorded status is FAILED. -/
theorem determineStatusSuccessIff :
    ∀ (envStatus : String) (resultData : Option JsonV),
      (determineStatus envStatus resultData = "SUCCESS" ↔
        (envStatus = "SUCCESS" ∧
          ∀ fields, resultData = some (JsonV.obj fields) →
            List.lookup "success" fields ≠ some (JsonV.bool false))) ∧
      (determineStatus envStatus resultData = "SUCCESS" ∨
        determineStatus envStatus resultData = "FAILED") := by
  intro es rd
  constructor
  · by_cases hs : es = "SUCCESS"
    · cases hf : isFalseSuccess rd with
      | false =>
          have hprop := (isFalseSuccess_false_iff rd).mp hf
          simp [determineStatus, hs, hf]
          exact hprop
      | true =>
          have hnot : ¬ ∀ fields, rd = some (JsonV.obj fields) →
              List.lookup "success" fields ≠ some (JsonV.bool false) := by
            intro hall
            have hfalse := (isFalseSuccess_false_iff rd).mpr hall
            rw [hf] at hfalse
            exact Bool.noConfusion hfalse
          refine iff_of_false ?_ ?_
          · simp [determineStatus, hs, hf]
          · intro hc
            exact hnot hc.2
    · refine iff_of_false ?_ ?_
      · simp [determineStatus, hs]
      · intro hc
        exact hs hc.1
  · unfold determineStatus
    cases hc : (es = "SUCCESS" && !isFalseSuccess rd) <;> simp [hc]

/-- C9: the claim transition has no `WHERE status = 'en_espera'` guard
(worker_service.py lines 183-208): claiming succeeds for any existing row
regardless of its current status, so a second worker claiming the same row
after a first successful claim also observes success — double execution is
possible, contradicting at-most-one-claim. -/
theorem doubleClaimBothSucceed :
    (claimWorkflow [("wf1", { status := "en_espera", definition := [] })]
        "wf1").1 = true ∧
    Option.map SharedRow.status
        (List.lookup "wf1"
          (claimWorkflow [("wf1", { status := "en_espera", definition := [] })]
            "wf1").2) =
      some "en_progreso" ∧
    (claimWorkflow
        (claimWorkflow [("wf1", { status := "en_espera", definition := [] })]
          "wf1").2 "wf1").1 = true := by
  exact ⟨rfl, rfl, rfl⟩

/-- C5 counterexample: a workflow with no nodes reaches terminal reduction
with an empty `node_status`; every one of its (zero) node statuses is
vacuously in {FAILED, SKIPPED}, yet the reduction yields SUCCESS, not
FAILED — `all(...)` over an empty dict is true, so the first branch wins. -/
theorem reduceStatusEmptyRunIsSuccess :
    runStatusOf (runWorkflow theFiveTypes echoContextBeh
        { name := "empty", nodes := [] }) = some "SUCCESS" ∧
    runNodeStatusesOf (runWorkflow theFiveTypes echoContextBeh
        { name := "empty", nodes := [] }) = some [] ∧
    reduceStatus [] = "SUCCESS" ∧
    (([] : List String).all fun s => s = "FAILED" ∨ s = "SKIPPED") = true ∧
    ¬ reduceStatus [] = "FAILED" := by
  refine ⟨rfl, rfl, rfl, rfl, by decide⟩

/-- C5 (amended): for every run whose node set is NON-EMPTY (each recorded
status being one of SUCCESS, FAILED, SKIPPED — the only values the engine
writes), the reduction (workflow_engine.py lines 112-117) yields SUCCESS
iff every node is SUCCESS, FAILED iff every node is in {FAILED, SKIPPED},
and PARTIAL_SUCCESS iff at least one node is SUCCESS and at least one is
not.  For the empty run the reduction yields SUCCESS. -/
theorem reduceStatusTrichotomy :
    ∀ (l : List String), l ≠ [] →
      (∀ s ∈ l, s = "SUCCESS" ∨ s = "FAILED" ∨ s = "SKIPPED") →
      ((reduceStatus l = "SUCCESS" ↔ ∀ s ∈ l, s = "SUCCESS") ∧
       (reduceStatus l = "FAILED" ↔ ∀ s ∈ l, s = "FAILED" ∨ s = "SKIPPED") ∧
       (reduceStatus l = "PARTIAL_SUCCESS" ↔
         ((∃ s ∈ l, s = "SUCCESS") ∧ ∃ s ∈ l, s ≠ "SUCCESS"))) := by
  intro l hne hmem
  by_cases hA : (l.all fun s => s = "SUCCESS") = true
  · have hall : ∀ s ∈ l, s = "SUCCESS" := by simpa using hA
    obtain ⟨s0, hs0⟩ := List.exists_mem_of_ne_nil l hne
    refine ⟨iff_of_true (by simp [reduceStatus, hA]) hall,
            iff_of_false (by simp [reduceStatus, hA]) ?_,
            iff_of_false (by simp [reduceStatus, hA]) ?_⟩
    · intro hforall
      have h1 := hall s0 hs0
      have h2 := hforall s0 hs0
      rw [h1] at h2
      rcases h2 with h2 | h2 <;> exact absurd h2 (by decide)
    · rintro ⟨_, s, hsl, hsne⟩
      exact hsne (hall s hsl)
  · have hnall : ¬ ∀ s ∈ l, s = "SUCCESS" := by simpa using hA
    by_cases hE : (l.any fun s => s = "SUCCESS") = true
    · have hex : ∃ s ∈ l, s = "SUCCESS" := by simpa using hE
      have hexne : ∃ s ∈ l, s ≠ "SUCCESS" := by
        push_neg at hnall
        exact hnall
      refine ⟨iff_of_false (by simp [reduceStatus, hA, hE]) hnall,
              iff_of_false (by simp [reduceStatus, hA, hE]) ?_,
              iff_of_true (by simp [reduceStatus, hA, hE]) ⟨hex, hexne⟩⟩
      · intro hforall
        rcases hex with ⟨s, hsl, hseq⟩
        have h2 := hforall s hsl
        rw [hseq] at h2
        rcases h2 with h | h <;> exact absurd h (by decide)
    · have hnone : ∀ s ∈ l, s ≠ "SUCCESS" := by
        intro s hs hcontra
        apply hE
        simp only [List.any_eq_true, decide_eq_true_eq]
        exact ⟨s, hs, hcontra⟩
      refine ⟨iff_of_false (by simp [reduceStatus, hA, hE]) hnall,
              iff_of_true (by simp [reduceStatus, hA, hE]) ?_,
              iff_of_false (by simp [reduceStatus, hA, hE]) ?_⟩
      · intro s hs
        rcases hmem s hs with h | h | h
        · exact absurd h (hnone s hs)
        · exact Or.inl h
        · exact Or.inr h
      · rintro ⟨⟨s, hsl, hseq⟩, _⟩
        exact hnone s hsl hseq

/-- Witness for `reduceStatusTrichotomy` on a concrete mixed status list. -/
theorem reduceStatusTrichotomyWitness :
    reduceStatus ["SUCCESS", "FAILED"] = "PARTIAL_SUCCESS" := by
  have h := reduceStatusTrichotomy ["SUCCESS", "FAILED"] (by decide) (by decide)
  exact h.2.2.mpr ⟨⟨"SUCCESS", by decide, rfl⟩, ⟨"FAILED", by decide, by decide⟩⟩

theorem convertStepsFrom_length (steps : List LegacyStep) :
    ∀ j : Nat, (convertStepsFrom j steps).length = steps.length := by
  induction steps with
  | nil => intro j; rfl
  | cons st rest ih => intro j; simp [convertStepsFrom, ih]

theorem convertStepsFrom_getElem (steps : List LegacyStep) :
    ∀ (j i : Nat),
      (convertStepsFrom j steps)[i]? = Option.map (legacyNode (j + i)) steps[i]? := by
  induction steps with
  | nil => intro j i; simp [convertStepsFrom]
  | cons st rest ih =>
      intro j i
      cases i with
      | zero => simp [convertStepsFrom]
      | succ i2 =>
          have harith : j + 1 + i2 = j + (i2 + 1) := by omega
          simp [convertStepsFrom, ih (j + 1) i2, harith]

/-- C7: the legacy `{steps: [...]}` translation
(worker_service.py lines 237-250 and 258-275) yields exactly one node per
step; the i-th node has id `step_i`, params the step's `args`, dependency
list `[step_(i-1)]` for `i > 0` and `[]` for `i = 0`; each display name in
the fixed table canonicalises as tabulated, and a name missing from the
table becomes its lowercased, space-to-underscore form. -/
theorem convertStepsSpec :
    ∀ (steps : List LegacyStep) (i : Nat) (t : String),
      (convertSteps steps).length = steps.length ∧
      (convertSteps steps)[i]? = Option.map (legacyNode i) steps[i]? ∧
      (∀ st : LegacyStep, legacyNode i st =
        { id := "step_" ++ toString i, type := mapStepType st.type,
          params := st.args,
          dependsOn := if i = 0 then [] else ["step_" ++ toString (i - 1)] }) ∧
      mapStepType "HTTPS GET Request" = "http_get" ∧
      mapStepType "Validate CSV File" = "validate_csv" ∧
      mapStepType "Simple Transform" = "transform_simple" ∧
      mapStepType "Save to Database" = "save_db" ∧
      mapStepType "Mock Notification" = "notify_mock" ∧
      (List.lookup t stepTypeMapping = none →
        mapStepType t = underscoreSpaces (pyLower t)) := by
  intro steps i t
  refine ⟨convertStepsFrom_length steps 0, ?_, fun st => rfl,
          rfl, rfl, rfl, rfl, rfl, ?_⟩
  · have h := convertStepsFrom_getElem steps 0 i
    simpa using h
  · intro h
    simp [mapStepType, h]

/-- Sample legacy steps used by the witness below. -/
def legacySample : List LegacyStep :=
  [{ type := "HTTPS GET Request", args := [] },
   { type := "Unknown Task Type", args := [("x", JsonV.num 1)] }]

/-- Witness for `convertStepsSpec` on `legacySample` at index 1 and on the
out-of-table display name. -/
theorem convertStepsSpecWitness :
    (convertSteps legacySample).length = legacySample.length ∧
    mapStepType "Unknown Task Type" =
      underscoreSpaces (pyLower "Unknown Task Type") := by
  have h := convertStepsSpec legacySample 1 "Unknown Task Type"
  exact ⟨h.1, h.2.2.2.2.2.2.2.2 rfl⟩

/-- A stored definition that already carries `execution_results`, exhibiting
the overwrite. -/
def priorDefinition : List (String × JsonV) :=
  [("execution_results", JsonV.num 0), ("nodes", JsonV.arr [])]

/-- C8 counterexample: when the stored definition already contains an
`execution_results` key, `_update_workflow_status_in_db` overwrites it
with the fresh results, so that previously present key is NOT retained
with its original value. -/
theorem finaliseDefinitionOverwritesPriorKey :
    List.lookup "execution_results"
        (finaliseDefinition priorDefinition
          (JsonV.obj [("n1", JsonV.bool true)]) (JsonV.str "ts")) =
      some (JsonV.obj [("n1", JsonV.bool true)]) ∧
    List.lookup "execution_results" priorDefinition = some (JsonV.num 0) ∧
    ¬ (JsonV.obj [("n1", JsonV.bool true)] = JsonV.num 0) := by
  refine ⟨rfl, rfl, fun h => JsonV.noConfusion h⟩

/-- C8 (amended): the rewritten definition equals the stored one with
`execution_results` set to the node-result mapping and `executed_at` set to
the timestamp (each overwriting any previous value under those two keys);
every OTHER previously present key — `nodes` in particular — is retained
with its original value. -/
theorem finaliseDefinitionFrame :
    ∀ (currentDef : List (String × JsonV)) (results executedAt : JsonV)
      (k : String),
      (k ≠ "execution_results" → k ≠ "executed_at" →
        List.lookup k (finaliseDefinition currentDef results executedAt) =
          List.lookup k currentDef) ∧
      List.lookup "execution_results"
          (finaliseDefinition currentDef results executedAt) = some results ∧
      List.lookup "executed_at"
          (finaliseDefinition currentDef results executedAt) =
        some executedAt := by
  intro cd results ea k
  refine ⟨?_, ?_, ?_⟩
  · intro h1 h2
    rw [finaliseDefinition, lookup_setKey_ne _ _ _ _ h2,
        lookup_setKey_ne _ _ _ _ h1]
  · rw [finaliseDefinition, lookup_setKey_ne _ _ _ _ (by decide),
        lookup_setKey_self]
  · rw [finaliseDefinition, lookup_setKey_self]

/-- A stored definition without the two added keys, for the frame witness. -/
def nativeDefinition : List (String × JsonV) :=
  [("nodes", JsonV.arr []), ("name", JsonV.str "wf")]

/-- Witness for `finaliseDefinitionFrame`: the `nodes` key survives the
rewrite with its original value. -/
theorem finaliseDefinitionFrameWitness :
    List.lookup "nodes"
        (finaliseDefinition nativeDefinition (JsonV.obj []) (JsonV.str "ts")) =
      List.lookup "nodes" nativeDefinition := by
  have h := finaliseDefinitionFrame nativeDefinition (JsonV.obj [])
    (JsonV.str "ts") "nodes"
  exact h.1 (by decide) (by decide)

theorem retryGo_count_le (inner : InnerRuns) (m : ℚ) :
    ∀ (r k : Nat) (d : ℚ) (s : List ℚ) (le : String),
      (retryGo inner m r k d s le).2.1 ≤ k + r := by
  intro r
  induction r with
  | zero => intro k d s le; simp [retryGo]
  | succ r ih =>
      intro k d s le
      simp only [retryGo]
      cases h : inner k with
      | ok v => simp
      | error e =>
          exact le_trans (ih (k + 1) _ _ e) (by omega)

theorem retryGo_sleeps (inner : InnerRuns) (ds m : ℚ) :
    ∀ (r k : Nat) (d : ℚ) (s : List ℚ) (le : String),
      (k = 0 → d = ds ∧ s = []) →
      (∀ j : Nat, k = j + 1 →
        d = ds * m ^ j ∧ s = (List.range j).map (fun t => ds * m ^ t)) →
      (retryGo inner m r k d s le).2.2 =
        (List.range ((retryGo inner m r k d s le).2.1 - 1)).map
          (fun t => ds * m ^ t) := by
  intro r
  induction r with
  | zero =>
      intro k d s le h0 hS
      cases k with
      | zero => simp [retryGo, (h0 rfl).2]
      | succ j => simp [retryGo, (hS j rfl).2]
  | succ r ih =>
      intro k d s le h0 hS
      simp only [retryGo]
      cases h : inner k with
      | ok v =>
          cases k with
          | zero => simp [(h0 rfl).2]
          | succ j =>
              obtain ⟨hd, hs⟩ := hS j rfl
              simp [hd, hs, List.range_succ]
      | error e =>
          cases k with
          | zero =>
              obtain ⟨hd, hs⟩ := h0 rfl
              simp only [if_pos rfl]
              refine ih 1 d s e (fun hcon => absurd hcon (by omega)) ?_
              intro j hj
              have hj0 : j = 0 := by omega
              subst hj0
              constructor
              · rw [hd]; ring
              · simpa using hs
          | succ j =>
              obtain ⟨hd, hs⟩ := hS j rfl
              have hne : ¬ (j + 1 = 0) := by omega
              simp only [if_neg hne]
              refine ih (j + 2) (d * m) (s ++ [d]) e
                (fun hcon => absurd hcon (by omega)) ?_
              intro j2 hj2
              have hj2e : j2 = j + 1 := by omega
              subst hj2e
              constructor
              · rw [hd]; ring
              · rw [hs, hd, List.range_succ]
                simp

theorem retryGo_step_error (inner : InnerRuns) (m : ℚ) (r k : Nat) (d : ℚ)
    (s : List ℚ) (le e : String) (he : inner k = Except.error e) :
    retryGo inner m (r + 1) k d s le =
      retryGo inner m r (k + 1) (if k = 0 then d else d * m)
        (if k = 0 then s else s ++ [d]) e := by
  simp only [retryGo, he]

theorem retryGo_allError (inner : InnerRuns) (m : ℚ) :
    ∀ (r k : Nat) (d : ℚ) (s : List ℚ) (le : String),
      (∀ i, k ≤ i → i < k + (r + 1) → ∃ e, inner i = Except.error e) →
      (retryGo inner m (r + 1) k d s le).1 = inner (k + r) ∧
      (retryGo inner m (r + 1) k d s le).2.1 = k + (r + 1) := by
  intro r
  induction r with
  | zero =>
      intro k d s le hall
      obtain ⟨e, he⟩ := hall k (le_refl k) (by omega)
      simp [retryGo, he]
  | succ r ih =>
      intro k d s le hall
      obtain ⟨e, he⟩ := hall k (le_refl k) (by omega)
      have hrec := ih (k + 1)
        (if k = 0 then d else d * m) (if k = 0 then s else s ++ [d]) e
        (fun i hi1 hi2 => hall i (by omega) (by omega))
      rw [retryGo_step_error inner m (r + 1) k d s le e he]
      constructor
      · rw [hrec.1]
        congr 1
        omega
      · rw [hrec.2]
        omega

/-- C6: `RetryDecorator.run` (src/decorador.py lines 185-223) invokes the
inner `run` at most `max_retries + 1` times; the delays slept form the
geometric sequence `delay_seconds * backoff_multiplier ^ (k-1)` before the
k-th retry; when every attempt throws, the last exception is re-raised; and
an inner run that returns normally on the first attempt — including a
`success: false` payload — is never retried. -/
theorem retryRunSpec :
    ∀ (maxRetries : Nat) (delaySeconds backoffMultiplier : ℚ)
      (inner : InnerRuns),
      (retryRun maxRetries delaySeconds backoffMultiplier inner).2.1 ≤
        maxRetries + 1 ∧
      (retryRun maxRetries delaySeconds backoffMultiplier inner).2.2 =
        (List.range
            ((retryRun maxRetries delaySeconds backoffMultiplier inner).2.1 - 1)).map
          (fun t => delaySeconds * backoffMultiplier ^ t) ∧
      ((∀ i, i ≤ maxRetries → ∃ e, inner i = Except.error e) →
        (retryRun maxRetries delaySeconds backoffMultiplier inner).1 =
          inner maxRetries ∧
        (retryRun maxRetries delaySeconds backoffMultiplier inner).2.1 =
          maxRetries + 1) ∧
      (∀ v, inner 0 = Except.ok v →
        retryRun maxRetries delaySeconds backoffMultiplier inner =
          (Except.ok v, 1, [])) := by
  intro mr ds m inner
  refine ⟨?_, ?_, ?_, ?_⟩
  · have h := retryGo_count_le inner m (mr + 1) 0 ds [] ""
    simpa [retryRun] using h
  · exact retryGo_sleeps inner ds m (mr + 1) 0 ds [] ""
      (fun _ => ⟨rfl, rfl⟩) (fun j hj => absurd hj (by omega))
  · intro hall
    have h := retryGo_allError inner m mr 0 ds [] ""
      (fun i hi1 hi2 => hall i (by omega))
    constructor
    · simpa [retryRun] using h.1
    · simpa [retryRun] using h.2
  · intro v hv
    simp [retryRun, retryGo, hv]

/-- An inner task that throws on every attempt. -/
def alwaysBoom : InnerRuns := fun _ => Except.error "boom"

/-- Witness for `retryRunSpec` at `max_retries = 2`, `delay = 1`,
`multiplier = 2` with an always-throwing inner task: three invocations,
sleeps `[1, 2]`, last exception re-raised. -/
theorem retryRunSpecWitness :
    (retryRun 2 1 2 alwaysBoom).1 = alwaysBoom 2 ∧
    (retryRun 2 1 2 alwaysBoom).2.1 = 3 ∧
    (retryRun 2 1 2 alwaysBoom).2.2 =
      (List.range 2).map (fun t => (1 : ℚ) * 2 ^ t) := by
  have h := retryRunSpec 2 1 2 alwaysBoom
  have h3 := h.2.2.1 (fun i _ => ⟨"boom", rfl⟩)
  refine ⟨h3.1, h3.2, ?_⟩
  have h2 := h.2.1
  rw [h3.2] at h2
  simpa using h2

/-- C10: skip propagation is not transitive.  In the scheduling loop
(workflow_engine.py lines 46-105): a node none of whose direct dependencies
has recorded status FAILED is executed (its `execute_command` is invoked)
as soon as every dependency is in the executed set — a SKIPPED dependency
does not block it, because the skip branch adds the skipped node to the
executed set; only a direct FAILED dependency makes the loop mark a node
SKIPPED without invoking the runner. -/
theorem skipNotTransitive :
    ∀ (registry : List String) (beh : TaskBehavior) (workflowName : String)
      (st : RunState) (node : Node),
      ((∀ d ∈ node.dependsOn, List.lookup d st.nodeStatus ≠ some "FAILED") →
       (∀ d ∈ node.dependsOn, d ∈ st.executed) →
       processNode registry beh workflowName st node =
         (executeCommand registry beh (mkCmd workflowName node) none).map
           (recordExec st node)) ∧
      ((∃ d ∈ node.dependsOn, List.lookup d st.nodeStatus = some "FAILED") →
       processNode registry beh workflowName st node =
         .ok (recordSkip st node) ∧
       node.id ∈ (recordSkip st node).executed) := by
  intro registry beh wfName st node
  constructor
  · intro h1 h2
    have hany : (node.dependsOn.any
        fun d => List.lookup d st.nodeStatus = some "FAILED") = false := by
      rw [List.any_eq_false]
      intro d hd
      simpa using h1 d hd
    have hall : (node.dependsOn.all
        fun d => st.executed.contains d) = true := by
      rw [List.all_eq_true]
      intro d hd
      simpa using h2 d hd
    simp only [processNode, hany, hall]
    simp
  · rintro ⟨d, hd, hfail⟩
    have hany : (node.dependsOn.any
        fun d => List.lookup d st.nodeStatus = some "FAILED") = true := by
      rw [List.any_eq_true]
      exact ⟨d, hd, by simpa using hfail⟩
    constructor
    · simp only [processNode, hany]
      simp
    · simp [recordSkip]

/-- A loop state in which node `a` was skipped (and therefore added to the
executed set). -/
def stSkipCase : RunState :=
  { pending := [], executed := ["a"], nodeStatus := [("a", "SKIPPED")],
    results := [], context := [], progress := true }

/-- A node depending only on the skipped node `a`. -/
def nodeAfterSkipped : Node :=
  { id := "c", type := "notify_mock", params := [], dependsOn := ["a"] }

/-- A loop state in which node `a` failed. -/
def stFailCase : RunState :=
  { pending := [], executed := ["a"], nodeStatus := [("a", "FAILED")],
    results := [], context := [], progress := true }

/-- A node depending only on the failed node `a`. -/
def nodeAfterFailed : Node :=
  { id := "b", type := "notify_mock", params := [], dependsOn := ["a"] }

/-- Witness for `skipNotTransitive`: a node behind a SKIPPED dependency is
executed, a node behind a FAILED dependency is skipped. -/
theorem skipNotTransitiveWitness :
    processNode theFiveTypes echoContextBeh "wf" stSkipCase nodeAfterSkipped =
      (executeCommand theFiveTypes echoContextBeh
          (mkCmd "wf" nodeAfterSkipped) none).map
        (recordExec stSkipCase nodeAfterSkipped) ∧
    processNode theFiveTypes echoContextBeh "wf" stFailCase nodeAfterFailed =
      .ok (recordSkip stFailCase nodeAfterFailed) ∧
    nodeAfterFailed.id ∈ (recordSkip stFailCase nodeAfterFailed).executed := by
  have h1 := skipNotTransitive theFiveTypes echoContextBeh "wf"
    stSkipCase nodeAfterSkipped
  have h2 := skipNotTransitive theFiveTypes echoContextBeh "wf"
    stFailCase nodeAfterFailed
  have hex : ∃ d ∈ nodeAfterFailed.dependsOn,
      List.lookup d stFailCase.nodeStatus = some "FAILED" := by decide
  exact ⟨h1.1 (by decide) (by decide), (h2.2 hex).1, (h2.2 hex).2⟩

/-- A two-node chain A ← B, B consuming A's published result. -/
def wfPair : WorkflowDef :=
  { name := "wf",
    nodes := [{ id := "A", type := "http_get", params := [], dependsOn := [] },
              { id := "B", type := "http_get", params := [],
                dependsOn := ["A"] }] }

/-- C1: the shared per-run context is NOT threaded into the tasks.
`WorkflowEngine.run` calls `execute_command(command)` without the context
argument (workflow_engine.py line 74), and `execute_command` itself rebinds
`context = {}` (worker_engine.py line 45), so the context argument is
ignored entirely.  Concretely: in the chain A ← B with a task behaviour
that echoes the context it receives, A executes first with status SUCCESS,
yet B's recorded result is the EMPTY mapping — B's task never saw A's
result, although the claim requires `context` to contain it. -/
theorem contextNeverThreaded :
    (∀ (registry : List String) (beh : TaskBehavior) (cmd : TaskCommand)
       (ctx : List (String × JsonV)),
       executeCommand registry beh cmd (some ctx) =
         executeCommand registry beh cmd none) ∧
    statusOfNode (runWorkflow theFiveTypes echoContextBeh wfPair) "A" =
      some "SUCCESS" ∧
    statusOfNode (runWorkflow theFiveTypes echoContextBeh wfPair) "B" =
      some "SUCCESS" ∧
    resultOfNode (runWorkflow theFiveTypes echoContextBeh wfPair) "A" =
      some (JsonV.obj []) ∧
    resultOfNode (runWorkflow theFiveTypes echoContextBeh wfPair) "B" =
      some (JsonV.obj []) := by
  refine ⟨?_, rfl, rfl, rfl, rfl⟩
  intro registry beh cmd ctx
  rfl
